import Mathlib

/-!
Verification of the SQL Statement Security Validator of this repository.

The validators are embedded shallowly over `List Char` (a string is its list
of characters): `ValidateReadQuery` and `ValidateUpdateQuery` model
`src/dotnet/MssqlMcp/SqlSecurityValidator.cs`, `validateDBAQuery` models the
`DBA_ReadDataTool` validator, and `validateDDL` models the `ExecuteDDLTool`
validator.  The regular expressions of the source are hand-compiled into
structurally recursive scanners with the same matching semantics.
-/

set_option maxHeartbeats 4000000
set_option maxRecDepth 10000

namespace SqlVal

/-- Characters of a string literal, the embedding of a string value. -/
def lc (s : String) : List Char := s.data

/-- Whitespace in the sense of the regex class backslash-s (ASCII part). -/
def isWsChar (c : Char) : Bool :=
  c = ' ' || c = '\t' || c = '\n' || c = '\r' || c = '\x0B' || c = '\x0C'

/-- Word characters in the sense of the character class A-Za-z0-9_. -/
def isWordChar (c : Char) : Bool :=
  ('A' ≤ c && c ≤ 'Z') || ('a' ≤ c && c ≤ 'z') || ('0' ≤ c && c ≤ '9') || c = '_'

/-- Uppercasing, the embedding of ToUpperInvariant / toUpperCase on ASCII. -/
def upperL (l : List Char) : List Char := l.map Char.toUpper

/-- Whether two given characters occur adjacently, in order, in the list. -/
def hasSub2 (a b : Char) : List Char → Bool
  | c :: d :: rest => (c = a && d = b) || hasSub2 a b (d :: rest)
  | _ => false

/-- Substring containment: `pat` occurs contiguously in the list. -/
def hasSub (pat : List Char) : List Char → Bool
  | [] => pat.isPrefixOf ([] : List Char)
  | c :: rest => pat.isPrefixOf (c :: rest) || hasSub pat rest

/-- Drop leading and trailing whitespace, the embedding of Trim / trim. -/
def trimWs (l : List Char) : List Char :=
  ((l.dropWhile isWsChar).reverse.dropWhile isWsChar).reverse

/-- The embedding of string.IsNullOrWhiteSpace. -/
def isNullOrWs (l : List Char) : Bool := l.all isWsChar

/-- Line-comment removal of the C# RemoveComments: the regex dash-dash
followed by dot-star up to end of line, Multiline, so the comment text runs
up to but not including the next newline.  The Bool is the in-comment
state. -/
def rlcCs : Bool → List Char → List Char
  | _, [] => []
  | true, c :: rest => if c = '\n' then c :: rlcCs false rest else rlcCs true rest
  | false, c :: rest =>
    if c = '-' then
      match rest with
      | [] => [c]
      | d :: rest2 => if d = '-' then rlcCs true rest2 else c :: rlcCs false (d :: rest2)
    else c :: rlcCs false rest

/-- Line-comment removal of the JS validators: in JS the dot also excludes
a carriage return, so the comment text stops before a newline or a CR. -/
def rlcJs : Bool → List Char → List Char
  | _, [] => []
  | true, c :: rest =>
    if c = '\n' || c = '\r' then c :: rlcJs false rest else rlcJs true rest
  | false, c :: rest =>
    if c = '-' then
      match rest with
      | [] => [c]
      | d :: rest2 => if d = '-' then rlcJs true rest2 else c :: rlcJs false (d :: rest2)
    else c :: rlcJs false rest

/-- Scan for the closing star-slash of a block comment; returns the text
after it, or none when there is no close. -/
def findClose : List Char → Option (List Char)
  | '*' :: '/' :: rest => some rest
  | _ :: rest => findClose rest
  | [] => none

/-- Block-comment removal (the lazy slash-star dot-star star-slash regex of
both implementations), fuelled to stay structurally recursive; with fuel at
least the length of the list the scan never runs out.  An unclosed opener
is left in place, as the regex leaves it unmatched. -/
def rbcF : Nat → List Char → List Char
  | _, [] => []
  | 0, c :: rest => c :: rest
  | f + 1, c :: rest =>
    if c = '/' then
      match rest with
      | [] => [c]
      | d :: rest2 =>
        if d = '*' then
          match findClose rest2 with
          | some rest3 => rbcF f rest3
          | none => c :: d :: rest2
        else c :: rbcF f (d :: rest2)
    else c :: rbcF f rest

/-- The C# RemoveComments: line comments first, then block comments. -/
def RemoveComments (l : List Char) : List Char :=
  rbcF (rlcCs false l).length (rlcCs false l)

/-- Comment removal of the JS validators, same order. -/
def removeCommentsJs (l : List Char) : List Char :=
  rbcF (rlcJs false l).length (rlcJs false l)

/-- The three Replace calls of the C# normalization, turning tab, newline
and carriage return into spaces. -/
def replaceWsCs (l : List Char) : List Char :=
  l.map fun c => if c = '\t' || c = '\n' || c = '\r' then ' ' else c

/-- The C# collapse loop: replace double spaces until none remain; its net
effect collapses every run of spaces to a single space. -/
def collapseSpaces : List Char → List Char
  | [] => []
  | c :: rest =>
    match rest with
    | [] => [c]
    | d :: rest2 =>
      if c = ' ' && d = ' ' then collapseSpaces (d :: rest2)
      else c :: collapseSpaces (d :: rest2)

/-- The JS whitespace collapse: each maximal run of whitespace becomes one
space (the global replace of backslash-s-plus by a space).  The Bool says
whether the previous character was inside a whitespace run. -/
def cwj : Bool → List Char → List Char
  | _, [] => []
  | b, c :: rest =>
    if isWsChar c then
      if b then cwj true rest else ' ' :: cwj true rest
    else c :: cwj false rest

/-- The C# normalization: remove comments, replace tab/newline/CR by
spaces, trim, then collapse runs of spaces. -/
def normalizeCs (l : List Char) : List Char :=
  collapseSpaces (trimWs (replaceWsCs (RemoveComments l)))

/-- The JS normalization: remove comments, collapse whitespace runs to one
space, then trim. -/
def normalizeJs (l : List Char) : List Char :=
  trimWs (cwj false (removeCommentsJs l))

/-- Split on semicolons, the embedding of Split / split. -/
def splitSemi : List Char → List (List Char)
  | [] => [[]]
  | c :: rest =>
    if c = ';' then [] :: splitSemi rest
    else
      match splitSemi rest with
      | s :: ss => (c :: s) :: ss
      | [] => [[c]]

/-- The candidate statements the C# validators count: semicolon segments
that are not null or whitespace. -/
def statementsOf (l : List Char) : List (List Char) :=
  (splitSemi l).filter fun st => !(isNullOrWs st)

/-- One standalone-keyword position: the keyword is not immediately
preceded (prev) or followed by a word character, the boundary semantics of
the keyword regex of all three validators. -/
def standaloneAt (kw : List Char) (prev : Option Char) (l : List Char) : Bool :=
  (match prev with | none => true | some c => !(isWordChar c)) &&
  kw.isPrefixOf l &&
  (match l.drop kw.length with | [] => true | c :: _ => !(isWordChar c))

/-- Scan every position for a standalone occurrence of the keyword. -/
def hasKeywordFrom (kw : List Char) : Option Char → List Char → Bool
  | prev, [] => standaloneAt kw prev []
  | prev, c :: rest => standaloneAt kw prev (c :: rest) || hasKeywordFrom kw (some c) rest

/-- The keyword scanner: a standalone occurrence anywhere in the text. -/
def hasKeyword (kw : List Char) (l : List Char) : Bool := hasKeywordFrom kw none l

/-- First denylisted keyword found, in list order — the foreach loops of
the validators return the first match. -/
def findFirstKw : List (List Char) → List Char → Option (List Char)
  | [], _ => none
  | kw :: rest, l => if hasKeyword kw l then some kw else findFirstKw rest l

/-- Scan every position of the text, carrying the previous character for
word-boundary tests. -/
def anyPosFrom (f : Option Char → List Char → Bool) : Option Char → List Char → Bool
  | prev, [] => f prev []
  | prev, c :: rest => f prev (c :: rest) || anyPosFrom f (some c) rest

/-- Whether the position predicate holds somewhere in the text. -/
def scanAll (f : Option Char → List Char → Bool) (l : List Char) : Bool :=
  anyPosFrom f none l

/-- Drop whitespace, for backslash-s-star in a pattern. -/
def dropWs (l : List Char) : List Char := l.dropWhile isWsChar

/-- Match a literal and return the remainder. -/
def litP (pat : List Char) (l : List Char) : Option (List Char) :=
  if pat.isPrefixOf l then some (l.drop pat.length) else none

/-- Match one-or-more whitespace (backslash-s-plus) and return the
remainder after the whole run. -/
def ws1P : List Char → Option (List Char)
  | c :: rest => if isWsChar c then some (dropWs rest) else none
  | [] => none

/-- Word-boundary test against the previous character. -/
def notWordPrev : Option Char → Bool
  | none => true
  | some c => !(isWordChar c)

/-- A semicolon, optional whitespace, then one of the given verbs as a
literal prefix — the statement-chaining patterns. -/
def semiKwsAt (kws : List (List Char)) : List Char → Bool
  | ';' :: rest => kws.any fun k => k.isPrefixOf (dropWs rest)
  | _ => false

/-- The union-injection pattern: word boundary, UNION, whitespace, an
optional ALL plus whitespace, then SELECT. -/
def unionAt (prev : Option Char) (l : List Char) : Bool :=
  notWordPrev prev &&
  (match litP (lc "UNION") l with
   | some r =>
     match ws1P r with
     | some r1 =>
       (lc "SELECT").isPrefixOf r1 ||
       (match litP (lc "ALL") r1 with
        | some r2 =>
          match ws1P r2 with
          | some r3 => (lc "SELECT").isPrefixOf r3
          | none => false
        | none => false)
     | none => false
   | none => false)

/-- Scan the rest of a line (dot does not cross a newline) for one of the
given verbs as a literal prefix. -/
def scanLineKw (kws : List (List Char)) : List Char → Bool
  | [] => false
  | c :: rest =>
    if c = '\n' then false
    else (kws.any fun k => k.isPrefixOf (c :: rest)) || scanLineKw kws rest

/-- The line-comment smuggling pattern: dash-dash then a verb later on the
same line. -/
def lineCmtKwAt (kws : List (List Char)) : List Char → Bool
  | '-' :: '-' :: rest => scanLineKw kws rest
  | _ => false

/-- Scan the rest of a line for the closing star-slash. -/
def scanLineClose : List Char → Bool
  | '*' :: '/' :: _ => true
  | c :: rest => if c = '\n' then false else scanLineClose rest
  | [] => false

/-- Scan a line for a verb that is later followed, still on the same line,
by a closing star-slash. -/
def scanLineKwClose (kws : List (List Char)) : List Char → Bool
  | [] => false
  | c :: rest =>
    if c = '\n' then false
    else
      (kws.any fun k => k.isPrefixOf (c :: rest) && scanLineClose ((c :: rest).drop k.length)) ||
      scanLineKwClose kws rest

/-- The block-comment smuggling pattern: slash-star, a verb, then the
closing star-slash, all on one line since the dots do not cross newlines
(Singleline is not set). -/
def blockCmtKwAt (kws : List (List Char)) : List Char → Bool
  | '/' :: '*' :: rest => scanLineKwClose kws rest
  | _ => false

/-- Word boundary, an execution verb, optional whitespace, an opening
parenthesis. -/
def execParenAt (exe : List Char) (prev : Option Char) (l : List Char) : Bool :=
  notWordPrev prev &&
  (match litP exe l with
   | some r => match dropWs r with | '(' :: _ => true | _ => false
   | none => false)

/-- The same without the word boundary (the DDL patterns have no
boundary). -/
def execParenNbAt (exe : List Char) (l : List Char) : Bool :=
  match litP exe l with
  | some r => (match dropWs r with | '(' :: _ => true | _ => false)
  | none => false

/-- Word boundary then a literal word (used for sp underscore, xp
underscore, OPENROWSET and the system functions). -/
def bWordAt (w : List Char) (prev : Option Char) (l : List Char) : Bool :=
  notWordPrev prev && w.isPrefixOf l

/-- Word boundary, first word, one-or-more whitespace, second word. -/
def bSeqWs1At (w1 w2 : List Char) (prev : Option Char) (l : List Char) : Bool :=
  notWordPrev prev &&
  (match litP w1 l with
   | some r => match ws1P r with
     | some r1 => w2.isPrefixOf r1
     | none => false
   | none => false)

/-- First word, one-or-more whitespace, then one of the alternatives, with
no word boundary (the JS patterns). -/
def seqWs1At (w1 : List Char) (alts : List (List Char)) (l : List Char) : Bool :=
  match litP w1 l with
  | some r =>
    (match ws1P r with
     | some r1 => alts.any fun a => a.isPrefixOf r1
     | none => false)
  | none => false

/-- The multiple-statement pattern: a semicolon, optional whitespace, a
word character. -/
def semiWordAt : List Char → Bool
  | ';' :: rest => (match dropWs rest with | c :: _ => isWordChar c | [] => false)
  | _ => false

/-- A plus, optional whitespace, a conversion function name, optional
whitespace, an opening parenthesis. -/
def plusFnAt (name : List Char) : List Char → Bool
  | '+' :: rest =>
    (match litP name (dropWs rest) with
     | some r => match dropWs r with | '(' :: _ => true | _ => false
     | none => false)
  | _ => false

/-- The double-at system-variable pattern. -/
def atAtAt : List Char → Bool
  | '@' :: '@' :: _ => true
  | _ => false

/-- The single quote character, used inside the diagnostic messages. -/
def sq : Char := Char.ofNat 39

/-- The DangerousKeywords array of SqlSecurityValidator.cs. -/
def DangerousKeywords : List (List Char) :=
  [lc "DELETE", lc "DROP", lc "INSERT", lc "ALTER", lc "CREATE", lc "TRUNCATE",
   lc "EXEC", lc "EXECUTE", lc "MERGE", lc "REPLACE", lc "GRANT", lc "REVOKE",
   lc "COMMIT", lc "ROLLBACK", lc "TRANSACTION", lc "BEGIN", lc "DECLARE",
   lc "SET", lc "USE", lc "BACKUP", lc "RESTORE", lc "KILL", lc "SHUTDOWN",
   lc "WAITFOR", lc "OPENROWSET", lc "OPENDATASOURCE", lc "OPENQUERY",
   lc "OPENXML", lc "BULK"]

/-- The filtered keyword list of ValidateUpdateQuery: the denylist minus
UPDATE and SET. -/
def updateKeywords : List (List Char) :=
  DangerousKeywords.filter fun k => k ≠ lc "UPDATE" && k ≠ lc "SET"

/-- The verb alternation of the statement-chaining pattern of
SqlSecurityValidator.cs. -/
def csChainKws : List (List Char) :=
  [lc "DELETE", lc "DROP", lc "UPDATE", lc "INSERT", lc "ALTER", lc "CREATE",
   lc "TRUNCATE", lc "EXEC", lc "EXECUTE", lc "MERGE", lc "REPLACE",
   lc "GRANT", lc "REVOKE"]

/-- The verb alternation of the comment-injection patterns of
SqlSecurityValidator.cs. -/
def csCmtKws : List (List Char) :=
  [lc "DELETE", lc "DROP", lc "UPDATE", lc "INSERT", lc "ALTER", lc "CREATE",
   lc "TRUNCATE", lc "EXEC", lc "EXECUTE"]

/-- The DangerousPatterns array of SqlSecurityValidator.cs as one boolean:
whether any of the regexes matches the text.  All case-insensitive
patterns are scanned over the uppercased text, which has the same matching
behaviour. -/
def DangerousPatterns (sql : List Char) : Bool :=
  let u := upperL sql
  scanAll (fun _ l => semiKwsAt csChainKws l) u ||
  scanAll unionAt u ||
  scanAll (fun _ l => lineCmtKwAt csCmtKws l) u ||
  scanAll (fun _ l => blockCmtKwAt csCmtKws l) u ||
  scanAll (execParenAt (lc "EXEC")) u ||
  scanAll (execParenAt (lc "EXECUTE")) u ||
  scanAll (bWordAt (lc "SP_")) u ||
  scanAll (bWordAt (lc "XP_")) u ||
  scanAll (bSeqWs1At (lc "BULK") (lc "INSERT")) u ||
  scanAll (bWordAt (lc "OPENROWSET")) u ||
  scanAll (bWordAt (lc "OPENDATASOURCE")) u ||
  scanAll (fun _ l => atAtAt l) u ||
  scanAll (bWordAt (lc "SYSTEM_USER")) u ||
  scanAll (bWordAt (lc "USER_NAME")) u ||
  scanAll (bWordAt (lc "DB_NAME")) u ||
  scanAll (bWordAt (lc "HOST_NAME")) u ||
  scanAll (bSeqWs1At (lc "WAITFOR") (lc "DELAY")) u ||
  scanAll (bSeqWs1At (lc "WAITFOR") (lc "TIME")) u ||
  scanAll (fun _ l => semiWordAt l) u ||
  scanAll (fun _ l => plusFnAt (lc "CHAR") l) u ||
  scanAll (fun _ l => plusFnAt (lc "NCHAR") l) u ||
  scanAll (fun _ l => plusFnAt (lc "ASCII") l) u

/-- The ValidationResult struct of SqlSecurityValidator.cs. -/
structure ValidationResult where
  IsValid : Bool
  Message : List Char
deriving DecidableEq

def msgNonEmpty : List Char := lc "Query must be a non-empty string"
def msgEmptyAfter : List Char := lc "Query cannot be empty after removing comments"
def msgStartSelect : List Char := lc "Query must start with SELECT for security reasons"
def msgKw (k : List Char) : List Char :=
  lc "Dangerous keyword " ++ ([sq] ++ (k ++ ([sq] ++
    lc " detected in query. Only SELECT operations are allowed.")))
def msgPattern : List Char :=
  lc "Potentially malicious SQL pattern detected. Only simple SELECT queries are allowed."
def msgMultiRead : List Char :=
  lc "Multiple SQL statements are not allowed. Use only a single SELECT statement."
def msgCharConv : List Char :=
  lc "Character conversion functions are not allowed as they may be used for obfuscation."
def msgTooLong : List Char :=
  lc "Query is too long. Maximum allowed length is 10,000 characters."
def msgPass : List Char := lc "Query validation passed"
def msgStartUpdate : List Char := lc "Query must start with UPDATE for update operations"
def msgWhere : List Char :=
  lc "UPDATE queries must include a WHERE clause for security reasons"
def msgKwUpd (k : List Char) : List Char :=
  lc "Dangerous keyword " ++ ([sq] ++ (k ++ ([sq] ++ lc " detected in query.")))
def msgMultiUpd : List Char :=
  lc "Multiple SQL statements are not allowed. Use only a single UPDATE statement."

/-- ValidateReadQuery of SqlSecurityValidator.cs. -/
def ValidateReadQuery (sql : List Char) : ValidationResult :=
  if isNullOrWs sql then ⟨false, msgNonEmpty⟩ else
  if isNullOrWs (normalizeCs sql) then ⟨false, msgEmptyAfter⟩ else
  if !((lc "SELECT").isPrefixOf (upperL (normalizeCs sql))) then ⟨false, msgStartSelect⟩ else
  match findFirstKw DangerousKeywords (upperL (normalizeCs sql)) with
  | some k => ⟨false, msgKw k⟩
  | none =>
    if DangerousPatterns sql then ⟨false, msgPattern⟩ else
    if (statementsOf (normalizeCs sql)).length > 1 then ⟨false, msgMultiRead⟩ else
    if hasSub (lc "CHAR(") (upperL sql) || hasSub (lc "NCHAR(") (upperL sql) ||
       hasSub (lc "ASCII(") (upperL sql) then ⟨false, msgCharConv⟩ else
    if sql.length > 10000 then ⟨false, msgTooLong⟩ else
    ⟨true, msgPass⟩

/-- ValidateUpdateQuery of SqlSecurityValidator.cs.  Note: there is no
pattern scan and no character-conversion check in this path. -/
def ValidateUpdateQuery (sql : List Char) : ValidationResult :=
  if isNullOrWs sql then ⟨false, msgNonEmpty⟩ else
  if isNullOrWs (normalizeCs sql) then ⟨false, msgEmptyAfter⟩ else
  if !((lc "UPDATE").isPrefixOf (upperL (normalizeCs sql))) then ⟨false, msgStartUpdate⟩ else
  if !(hasSub (lc " WHERE ") (upperL (normalizeCs sql))) then ⟨false, msgWhere⟩ else
  match findFirstKw updateKeywords (upperL (normalizeCs sql)) with
  | some k => ⟨false, msgKwUpd k⟩
  | none =>
    if (statementsOf (normalizeCs sql)).length > 1 then ⟨false, msgMultiUpd⟩ else
    if sql.length > 10000 then ⟨false, msgTooLong⟩ else
    ⟨true, msgPass⟩

/-- The result shape of the two JS validators: isValid plus optional
error text. -/
structure JsResult where
  isValid : Bool
  error : Option (List Char)
deriving DecidableEq

/-- DANGEROUS_KEYWORDS of DBA_ReadDataTool. -/
def DBA_DANGEROUS_KEYWORDS : List (List Char) :=
  [lc "DELETE", lc "DROP", lc "UPDATE", lc "INSERT", lc "ALTER", lc "CREATE",
   lc "TRUNCATE", lc "MERGE", lc "REPLACE", lc "GRANT", lc "REVOKE",
   lc "BACKUP", lc "RESTORE", lc "KILL", lc "SHUTDOWN",
   lc "OPENROWSET", lc "OPENDATASOURCE", lc "OPENQUERY", lc "OPENXML", lc "BULK",
   lc "DBCC CHECKDB", lc "DBCC CHECKALLOC", lc "DBCC CHECKTABLE",
   lc "DBCC CHECKFILEGROUP"]

/-- DANGEROUS_PATTERNS of DBA_ReadDataTool, as one boolean over the raw
query text. -/
def DBA_DANGEROUS_PATTERNS (query : List Char) : Bool :=
  let u := upperL query
  scanAll (fun _ l => seqWs1At (lc "DBCC")
    [lc "CHECKDB", lc "CHECKALLOC", lc "CHECKTABLE", lc "CHECKFILEGROUP",
     lc "WRITEPAGE", lc "PAGE"] l) u ||
  scanAll (fun _ l => seqWs1At (lc "EXEC") [lc "SP_CONFIGURE"] l) u ||
  scanAll (fun _ l => seqWs1At (lc "EXEC") [lc "XP_"] l) u ||
  scanAll (fun _ l => seqWs1At (lc "BULK") [lc "INSERT"] l) u ||
  hasSub (lc "OPENROWSET") u ||
  hasSub (lc "OPENDATASOURCE") u ||
  hasSub (lc "XP_CMDSHELL") u ||
  hasSub (lc "XP_DIRTREE") u ||
  hasSub (lc "XP_FILEEXIST") u ||
  hasSub (lc "PASSWORD") u ||
  hasSub (lc "LOGIN") u

/-- The hasValidOperation test of validateDBAQuery: the whole upper-cased
normalized text contains a SELECT anywhere, or a SET STATISTICS, SET
SHOWPLAN or DBCC SHOW underscore STATISTICS sequence. -/
def hasValidOperation (u : List Char) : Bool :=
  hasSub (lc "SELECT") u ||
  scanAll (fun _ l => seqWs1At (lc "SET") [lc "STATISTICS"] l) u ||
  scanAll (fun _ l => seqWs1At (lc "SET") [lc "SHOWPLAN"] l) u ||
  scanAll (fun _ l => seqWs1At (lc "DBCC") [lc "SHOW_STATISTICS"] l) u

def dbaMsgNonEmpty : List Char := lc "Query must be a non-empty string"
def dbaMsgEmpty : List Char := lc "Query cannot be empty after removing comments"
def dbaMsgKw (k : List Char) : List Char :=
  lc "Dangerous keyword " ++ ([sq] ++ (k ++ ([sq] ++
    lc " detected. This DBA tool prohibits data modification operations.")))
def dbaMsgPattern : List Char :=
  lc "Potentially dangerous operation detected. This tool is for diagnostic queries only."
def dbaMsgNoOp : List Char :=
  lc "Batch must contain at least one SELECT statement or valid DBA diagnostic command."
def dbaMsgLong : List Char :=
  lc "Query batch is too long. Maximum allowed length is 50,000 characters."

/-- validateDBAQuery of DBA_ReadDataTool. -/
def validateDBAQuery (query : List Char) : JsResult :=
  if query = [] then ⟨false, some dbaMsgNonEmpty⟩ else
  if normalizeJs query = [] then ⟨false, some dbaMsgEmpty⟩ else
  match findFirstKw DBA_DANGEROUS_KEYWORDS (upperL (normalizeJs query)) with
  | some k => ⟨false, some (dbaMsgKw k)⟩
  | none =>
    if DBA_DANGEROUS_PATTERNS query then ⟨false, some dbaMsgPattern⟩ else
    if !(hasValidOperation (upperL (normalizeJs query))) then ⟨false, some dbaMsgNoOp⟩ else
    if query.length > 50000 then ⟨false, some dbaMsgLong⟩ else
    ⟨true, none⟩

/-- ALLOWED_DDL_KEYWORDS of ExecuteDDLTool. -/
def ALLOWED_DDL_KEYWORDS : List (List Char) :=
  [lc "CREATE", lc "ALTER", lc "DROP", lc "TRUNCATE"]

/-- ALLOWED_OBJECT_TYPES of ExecuteDDLTool. -/
def ALLOWED_OBJECT_TYPES : List (List Char) :=
  [lc "TABLE", lc "INDEX", lc "VIEW", lc "TRIGGER", lc "CONSTRAINT",
   lc "DEFAULT", lc "RULE", lc "SCHEMA", lc "SEQUENCE", lc "SYNONYM"]

/-- DANGEROUS_KEYWORDS of ExecuteDDLTool. -/
def DDL_DANGEROUS_KEYWORDS : List (List Char) :=
  [lc "EXEC", lc "EXECUTE", lc "INSERT", lc "UPDATE", lc "DELETE", lc "SELECT",
   lc "MERGE", lc "REPLACE", lc "GRANT", lc "REVOKE", lc "COMMIT", lc "ROLLBACK",
   lc "TRANSACTION", lc "BEGIN", lc "DECLARE", lc "SET", lc "USE", lc "BACKUP",
   lc "RESTORE", lc "KILL", lc "SHUTDOWN", lc "WAITFOR", lc "OPENROWSET",
   lc "OPENDATASOURCE", lc "OPENQUERY", lc "OPENXML", lc "BULK", lc "DBCC"]

/-- The first semicolon-chaining verb list of the DDL patterns. -/
def ddlChain1 : List (List Char) :=
  [lc "EXEC", lc "EXECUTE", lc "INSERT", lc "UPDATE", lc "DELETE", lc "SELECT",
   lc "MERGE", lc "GRANT", lc "REVOKE", lc "KILL", lc "SHUTDOWN"]

/-- The second semicolon-chaining verb list of the DDL patterns. -/
def ddlChain2 : List (List Char) :=
  [lc "INSERT", lc "UPDATE", lc "DELETE", lc "SELECT"]

/-- DANGEROUS_PATTERNS of ExecuteDDLTool, as one boolean over the raw DDL
text.  Note the sp underscore and xp underscore rules are plain substring
tests with no word boundary. -/
def DDL_DANGEROUS_PATTERNS (ddl : List Char) : Bool :=
  let u := upperL ddl
  scanAll (fun _ l => semiKwsAt ddlChain1 l) u ||
  scanAll (fun _ l => execParenNbAt (lc "EXEC") l) u ||
  scanAll (fun _ l => execParenNbAt (lc "EXECUTE") l) u ||
  hasSub (lc "SP_") u ||
  hasSub (lc "XP_") u ||
  scanAll (fun _ l => seqWs1At (lc "BULK") [lc "INSERT"] l) u ||
  hasSub (lc "OPENROWSET") u ||
  hasSub (lc "OPENDATASOURCE") u ||
  scanAll (fun _ l => seqWs1At (lc "WAITFOR") [lc "DELAY"] l) u ||
  scanAll (fun _ l => seqWs1At (lc "WAITFOR") [lc "TIME"] l) u ||
  scanAll (fun _ l => semiKwsAt ddlChain2 l) u ||
  scanAll (fun _ l => plusFnAt (lc "CHAR") l) u ||
  scanAll (fun _ l => plusFnAt (lc "NCHAR") l) u ||
  scanAll (fun _ l => plusFnAt (lc "ASCII") l) u ||
  hasSub (lc "MASTER.") u ||
  hasSub (lc "MSDB.") u ||
  hasSub (lc "MODEL.") u ||
  hasSub (lc "TEMPDB.") u ||
  hasSub (lc "SYS.") u ||
  hasSub (lc "INFORMATION_SCHEMA.") u

/-- The leading-verb test of validateDDL: the upper text starts with an
allowed DDL verb followed by a space. -/
def startsWithAllowedDDL (u : List Char) : Bool :=
  ALLOWED_DDL_KEYWORDS.any fun k => (k ++ [' ']).isPrefixOf u

/-- The object-type test of validateDDL: the upper text contains one of
the allowed object types surrounded by spaces. -/
def hasAllowedObjectType (u : List Char) : Bool :=
  ALLOWED_OBJECT_TYPES.any fun t => hasSub ([' '] ++ (t ++ [' '])) u

def ddlMsgNonEmpty : List Char := lc "DDL statement must be a non-empty string"
def ddlMsgEmpty : List Char := lc "DDL statement cannot be empty after removing comments"
def ddlMsgVerb : List Char :=
  lc "DDL statement must start with one of: CREATE, ALTER, DROP, TRUNCATE"
def ddlMsgObj : List Char :=
  lc "Object type must be one of: TABLE, INDEX, VIEW, TRIGGER, CONSTRAINT, DEFAULT, RULE, SCHEMA, SEQUENCE, SYNONYM"
def ddlMsgKw (k : List Char) : List Char :=
  lc "Dangerous keyword " ++ ([sq] ++ (k ++ ([sq] ++
    lc " detected in DDL statement. Only safe DDL operations are allowed.")))
def ddlMsgPattern : List Char :=
  lc "Potentially malicious SQL pattern detected in DDL statement."
def ddlMsgBatch : List Char :=
  lc "All statements in a batch must be valid DDL operations."
def ddlMsgChar : List Char :=
  lc "Character conversion functions are not allowed as they may be used for obfuscation."
def ddlMsgLong : List Char :=
  lc "DDL statement is too long. Maximum allowed length is 50,000 characters."
def ddlMsgSysDb : List Char :=
  lc "Operations on system databases (master, msdb, model, tempdb) are not allowed."

/-- validateDDL of ExecuteDDLTool.  The character-conversion containment
test is case-sensitive in the source (a plain includes on the raw text). -/
def validateDDL (ddl : List Char) : JsResult :=
  if ddl = [] then ⟨false, some ddlMsgNonEmpty⟩ else
  if normalizeJs ddl = [] then ⟨false, some ddlMsgEmpty⟩ else
  if !(startsWithAllowedDDL (upperL (normalizeJs ddl))) then ⟨false, some ddlMsgVerb⟩ else
  if ((lc "CREATE ").isPrefixOf (upperL (normalizeJs ddl)) ||
      (lc "ALTER ").isPrefixOf (upperL (normalizeJs ddl))) &&
     !(hasAllowedObjectType (upperL (normalizeJs ddl))) then ⟨false, some ddlMsgObj⟩ else
  match findFirstKw DDL_DANGEROUS_KEYWORDS (upperL (normalizeJs ddl)) with
  | some k => ⟨false, some (ddlMsgKw k)⟩
  | none =>
    if DDL_DANGEROUS_PATTERNS ddl then ⟨false, some ddlMsgPattern⟩ else
    if decide (((splitSemi (normalizeJs ddl)).filter fun st => !(trimWs st).isEmpty).length > 1) &&
       !(((splitSemi (normalizeJs ddl)).filter fun st => !(trimWs st).isEmpty).all
          fun st => startsWithAllowedDDL (upperL (trimWs st))) then ⟨false, some ddlMsgBatch⟩ else
    if hasSub (lc "CHAR(") ddl || hasSub (lc "NCHAR(") ddl || hasSub (lc "ASCII(") ddl then
      ⟨false, some ddlMsgChar⟩ else
    if ddl.length > 50000 then ⟨false, some ddlMsgLong⟩ else
    if hasSub (lc "MASTER.") (upperL ddl) || hasSub (lc "MSDB.") (upperL ddl) ||
       hasSub (lc "MODEL.") (upperL ddl) || hasSub (lc "TEMPDB.") (upperL ddl) then
      ⟨false, some ddlMsgSysDb⟩ else
    ⟨true, none⟩

/-- Written from the spec for comparison (refinement check of the
DiagnosticBatch claim): the candidate statements of a batch, semicolon
segments trimmed and the empty ones dropped. -/
def specCandidates (l : List Char) : List (List Char) :=
  ((splitSemi l).map trimWs).filter fun st => !st.isEmpty

/-- Written from the spec for comparison: a candidate is a SELECT or a
whitelisted diagnostic toggle (SET STATISTICS or SET SHOWPLAN variants). -/
def specSelectOrToggle (st : List Char) : Bool :=
  (lc "SELECT").isPrefixOf (upperL st) ||
  (lc "SET STATISTICS").isPrefixOf (upperL st) ||
  (lc "SET SHOWPLAN_").isPrefixOf (upperL st)

/-! ## Helper lemmas -/

/-- A keyword message never equals the missing-WHERE message: their first
segments already differ. -/
theorem msgKwUpd_ne_msgWhere (k : List Char) : msgKwUpd k ≠ msgWhere := by
  intro h
  have h2 := congrArg (List.take (lc "Dangerous keyword ").length) h
  rw [msgKwUpd, List.take_left] at h2
  exact absurd h2 (by decide)

/-- If a keyword of the list occurs standalone, the scan of the list finds
some keyword, which itself occurs standalone. -/
theorem findFirstKw_isSome (kws : List (List Char)) (k : List Char)
    (hk : k ∈ kws) (h : hasKeyword k l = true) :
    ∃ k2, findFirstKw kws l = some k2 ∧ k2 ∈ kws ∧ hasKeyword k2 l = true := by
  induction kws with
  | nil => cases hk
  | cons kw rest ih =>
    by_cases hkw : hasKeyword kw l = true
    · exact ⟨kw, by simp [findFirstKw, hkw], List.mem_cons_self kw rest, hkw⟩
    · rcases List.mem_cons.1 hk with rfl | hmem
      · exact absurd h hkw
      · rcases ih hmem with ⟨k2, hfind, hmem2, hkw2⟩
        exact ⟨k2, by simp [findFirstKw, hkw, hfind], List.mem_cons_of_mem kw hmem2, hkw2⟩

/-! ## C1 -/

/-- C1, counterexample.  The claim says every operation class, the
GuardedMutation (UPDATE) path included, runs the Pattern Scanner.  But the
update below matches the plus-CHAR-parenthesis injection pattern and is
nevertheless accepted by ValidateUpdateQuery, so the UPDATE path does not
run the Pattern Scanner. -/
theorem C1_counterexample :
    DangerousPatterns (lc "UPDATE t SET x = a + CHAR(65) WHERE id = 1") = true ∧
    ValidateUpdateQuery (lc "UPDATE t SET x = a + CHAR(65) WHERE id = 1") = ⟨true, msgPass⟩ :=
  ⟨by decide, by decide⟩

/-- C1, amended: the read path does run the Pattern Scanner (after the
emptiness, leading-verb and keyword checks), rejecting with the pattern
reason; the GuardedMutation path instead accepts any input that passes its
own checks (normalize, empty, leading UPDATE, WHERE containment, keyword
scan minus UPDATE and SET, statement count, maxLength) regardless of
whether a dangerous pattern matches. -/
theorem C1_amended :
    (∀ s : List Char, isNullOrWs s = false → isNullOrWs (normalizeCs s) = false →
      (lc "SELECT").isPrefixOf (upperL (normalizeCs s)) = true →
      findFirstKw DangerousKeywords (upperL (normalizeCs s)) = none →
      DangerousPatterns s = true →
      ValidateReadQuery s = ⟨false, msgPattern⟩) ∧
    (∀ s : List Char, isNullOrWs s = false → isNullOrWs (normalizeCs s) = false →
      (lc "UPDATE").isPrefixOf (upperL (normalizeCs s)) = true →
      hasSub (lc " WHERE ") (upperL (normalizeCs s)) = true →
      findFirstKw updateKeywords (upperL (normalizeCs s)) = none →
      ¬ (statementsOf (normalizeCs s)).length > 1 →
      ¬ s.length > 10000 →
      ValidateUpdateQuery s = ⟨true, msgPass⟩) := by
  constructor
  · intro s h0 h1 h2 h3 h4
    unfold ValidateReadQuery
    simp [h0, h1, h2, h3, h4]
  · intro s h0 h1 h2 h3 h4 h5 h6
    unfold ValidateUpdateQuery
    simp [h0, h1, h2, h3, h4, h5, h6]

/-- C1, witness for the amended theorem. -/
theorem C1_witness :
    ValidateReadQuery (lc "SELECT @@VERSION") = ⟨false, msgPattern⟩ ∧
    ValidateUpdateQuery (lc "UPDATE t SET x = a + CHAR(65) WHERE id = 1") = ⟨true, msgPass⟩ :=
  ⟨C1_amended.1 (lc "SELECT @@VERSION") (by decide) (by decide) (by decide) (by decide)
      (by decide),
   C1_amended.2 (lc "UPDATE t SET x = a + CHAR(65) WHERE id = 1") (by decide) (by decide)
      (by decide) (by decide) (by decide) (by decide) (by decide)⟩

/-! ## C2 -/

/-- C2, counterexample.  The claim says a multi-candidate DiagnosticBatch
is valid only if every candidate is a SELECT or a whitelisted toggle.  The
batch below has a second candidate that is neither, yet validateDBAQuery
accepts it. -/
theorem C2_counterexample :
    specCandidates (normalizeJs (lc "SELECT 1; PRINT 1")) =
      [lc "SELECT 1", lc "PRINT 1"] ∧
    specSelectOrToggle (lc "PRINT 1") = false ∧
    validateDBAQuery (lc "SELECT 1; PRINT 1") = ⟨true, none⟩ :=
  ⟨by decide, by decide, by decide⟩

/-- C2, amended: validateDBAQuery never checks candidates independently;
once the keyword and pattern scans pass, a batch is valid exactly when the
whole normalized text contains at least one SELECT or diagnostic-toggle
occurrence anywhere and the raw length is within bounds. -/
theorem C2_amended (q : List Char) (h0 : q ≠ []) (h1 : normalizeJs q ≠ [])
    (h2 : findFirstKw DBA_DANGEROUS_KEYWORDS (upperL (normalizeJs q)) = none)
    (h3 : DBA_DANGEROUS_PATTERNS q = false) :
    (validateDBAQuery q).isValid = true ↔
      (hasValidOperation (upperL (normalizeJs q)) = true ∧ ¬ q.length > 50000) := by
  unfold validateDBAQuery
  simp only [h0, h1, h2, h3, if_neg, if_false]
  by_cases hv : hasValidOperation (upperL (normalizeJs q)) = true
  · by_cases hl : q.length > 50000 <;> simp [hv, hl]
  · simp [Bool.not_eq_true] at hv
    simp [hv]

/-- C2, witness for the amended theorem. -/
theorem C2_witness :
    (validateDBAQuery (lc "SELECT 1; PRINT 1")).isValid = true ↔
      (hasValidOperation (upperL (normalizeJs (lc "SELECT 1; PRINT 1"))) = true ∧
       ¬ (lc "SELECT 1; PRINT 1").length > 50000) :=
  C2_amended (lc "SELECT 1; PRINT 1") (by decide) (by decide) (by decide) (by decide)

/-! ## C3 -/

/-- C3, counterexample.  The claim says any occurrence of WHERE, one
inside a comment included, satisfies the guard-clause check.  The update
below contains WHERE only inside a block comment, and is rejected with the
missing-guard-clause reason: comments are stripped before the check. -/
theorem C3_counterexample :
    hasSub (lc "WHERE") (upperL (lc "UPDATE t SET x = 1 /* WHERE id = 1 */")) = true ∧
    ValidateUpdateQuery (lc "UPDATE t SET x = 1 /* WHERE id = 1 */") = ⟨false, msgWhere⟩ :=
  ⟨by decide, by decide⟩

/-- C3, amended: the guard check is textual containment of the
space-delimited WHERE token in the comment-stripped, whitespace-collapsed,
uppercased text.  A WHERE inside a string literal still satisfies it, but
one inside a comment does not, since comments are removed first; an UPDATE
whose normalized text lacks the token is rejected with the
missing-guard-clause reason, and when the token is present the result
never carries that reason. -/
theorem C3_amended (s : List Char) (h0 : isNullOrWs s = false)
    (h1 : isNullOrWs (normalizeCs s) = false)
    (h2 : (lc "UPDATE").isPrefixOf (upperL (normalizeCs s)) = true) :
    (hasSub (lc " WHERE ") (upperL (normalizeCs s)) = false →
      ValidateUpdateQuery s = ⟨false, msgWhere⟩) ∧
    (hasSub (lc " WHERE ") (upperL (normalizeCs s)) = true →
      (ValidateUpdateQuery s).Message ≠ msgWhere) := by
  constructor
  · intro hw
    unfold ValidateUpdateQuery
    simp [h0, h1, h2, hw]
  · intro hw
    unfold ValidateUpdateQuery
    simp only [h0, h1, h2, hw, Bool.not_true, Bool.false_eq_true, if_false]
    cases hfk : findFirstKw updateKeywords (upperL (normalizeCs s)) with
    | some k => simpa using msgKwUpd_ne_msgWhere k
    | none =>
      by_cases hm : (statementsOf (normalizeCs s)).length > 1
      · simp [hm]; decide
      · by_cases hl : s.length > 10000
        · simp [hm, hl]; decide
        · simp [hm, hl]; decide

/-- C3, witness for the amended theorem: a missing token is rejected with
the guard reason; a token inside a string literal escapes that reason. -/
theorem C3_witness :
    ValidateUpdateQuery (lc "UPDATE t SET x = 1") = ⟨false, msgWhere⟩ ∧
    (ValidateUpdateQuery
        (lc "UPDATE t SET x = " ++ ([sq] ++ (lc "a WHERE b" ++ [sq])))).Message ≠ msgWhere :=
  ⟨(C3_amended (lc "UPDATE t SET x = 1") (by decide) (by decide) (by decide)).1 (by decide),
   (C3_amended (lc "UPDATE t SET x = " ++ ([sq] ++ (lc "a WHERE b" ++ [sq])))
      (by decide) (by decide) (by decide)).2 (by decide)⟩

/-! ## C5 -/

/-- C5, counterexample.  The claim says the trailing SELECT batch is
rejected because the trailing statement fails the leading-verb check; in
the code it is rejected earlier, by the dangerous-keyword scan, whose
reason names SELECT and differs from the per-statement batch reason. -/
theorem C5_counterexample :
    validateDDL (lc "CREATE TABLE t (id INT); SELECT * FROM t") =
      ⟨false, some (ddlMsgKw (lc "SELECT"))⟩ ∧
    ddlMsgKw (lc "SELECT") ≠ ddlMsgBatch :=
  ⟨by decide, by decide⟩

/-- C5, amended: the two-CREATE batch is accepted; the batch with a
trailing SELECT is rejected, but by the dangerous-keyword check (the
reason names SELECT), which runs before the per-statement leading-verb
batch check. -/
theorem C5_amended :
    validateDDL (lc "CREATE TABLE t (id INT); CREATE INDEX ix ON t(id)") = ⟨true, none⟩ ∧
    validateDDL (lc "CREATE TABLE t (id INT); SELECT * FROM t") =
      ⟨false, some (ddlMsgKw (lc "SELECT"))⟩ :=
  ⟨by decide, by decide⟩

/-! ## C4 -/

/-- C4, counterexample.  The claim says every input containing a
denylisted keyword as a standalone token outside a comment is rejected
with the keyword named.  Below, DROP is a standalone token of the raw text
(followed by a slash) and sits outside the comment, yet the query is
accepted: comment removal splices DROP and Y into the identifier DROPY, so
the boundary-aware scan of the normalized text finds nothing. -/
theorem C4_counterexample :
    hasKeyword (lc "DROP") (upperL (lc "SELECT DROP/*x*/Y")) = true ∧
    ValidateReadQuery (lc "SELECT DROP/*x*/Y") = ⟨true, msgPass⟩ :=
  ⟨by decide, by decide⟩

/-- C4, amended: the property holds of the NORMALIZED text.  Whenever the
comment-stripped, whitespace-collapsed text contains a denylisted keyword
as a standalone token, ValidateReadQuery rejects; and when the input also
passes the checks ordered before the keyword scan (non-empty and leading
SELECT), the reason names a denylisted keyword that does occur standalone
in the normalized text. -/
theorem C4_amended (s k : List Char) (hk : k ∈ DangerousKeywords)
    (h : hasKeyword k (upperL (normalizeCs s)) = true) :
    (ValidateReadQuery s).IsValid = false ∧
    (isNullOrWs s = false → isNullOrWs (normalizeCs s) = false →
      (lc "SELECT").isPrefixOf (upperL (normalizeCs s)) = true →
      ∃ k2, k2 ∈ DangerousKeywords ∧ hasKeyword k2 (upperL (normalizeCs s)) = true ∧
        ValidateReadQuery s = ⟨false, msgKw k2⟩) := by
  rcases findFirstKw_isSome DangerousKeywords k hk h with ⟨k2, hfind, hmem2, hkw2⟩
  constructor
  · unfold ValidateReadQuery
    by_cases h0 : isNullOrWs s = true
    · simp [h0]
    · simp only [Bool.not_eq_true] at h0
      by_cases h1 : isNullOrWs (normalizeCs s) = true
      · simp [h0, h1]
      · simp only [Bool.not_eq_true] at h1
        by_cases h2 : (lc "SELECT").isPrefixOf (upperL (normalizeCs s)) = true
        · simp [h0, h1, h2, hfind]
        · simp only [Bool.not_eq_true] at h2
          simp [h0, h1, h2]
  · intro h0 h1 h2
    refine ⟨k2, hmem2, hkw2, ?_⟩
    unfold ValidateReadQuery
    simp [h0, h1, h2, hfind]

/-- C4, witness for the amended theorem. -/
theorem C4_witness :
    (ValidateReadQuery (lc "SELECT 1; DROP TABLE u")).IsValid = false ∧
    (∃ k2, k2 ∈ DangerousKeywords ∧
      hasKeyword k2 (upperL (normalizeCs (lc "SELECT 1; DROP TABLE u"))) = true ∧
      ValidateReadQuery (lc "SELECT 1; DROP TABLE u") = ⟨false, msgKw k2⟩) :=
  ⟨(C4_amended (lc "SELECT 1; DROP TABLE u") (lc "DROP") (by decide) (by decide)).1,
   (C4_amended (lc "SELECT 1; DROP TABLE u") (lc "DROP") (by decide) (by decide)).2
      (by decide) (by decide) (by decide)⟩

/-! ## C7 -/

/-- C7: in this embedding every validator is a total function, so it
always returns a result; and any input that is empty (or whitespace) after
comment stripping is rejected by all four validators, never accepted. -/
theorem C7_empty_rejected (s : List Char)
    (hc : isNullOrWs (normalizeCs s) = true) (hj : normalizeJs s = []) :
    (ValidateReadQuery s).IsValid = false ∧
    (ValidateUpdateQuery s).IsValid = false ∧
    (validateDDL s).isValid = false ∧
    (validateDBAQuery s).isValid = false := by
  refine ⟨?_, ?_, ?_, ?_⟩
  · unfold ValidateReadQuery
    by_cases h0 : isNullOrWs s = true
    · simp [h0]
    · simp only [Bool.not_eq_true] at h0
      simp [h0, hc]
  · unfold ValidateUpdateQuery
    by_cases h0 : isNullOrWs s = true
    · simp [h0]
    · simp only [Bool.not_eq_true] at h0
      simp [h0, hc]
  · unfold validateDDL
    by_cases h0 : s = []
    · simp [h0]
    · simp [h0, hj]
  · unfold validateDBAQuery
    by_cases h0 : s = []
    · simp [h0]
    · simp [h0, hj]

/-- C7, witness: a pure-comment input is rejected everywhere. -/
theorem C7_witness :
    (ValidateReadQuery (lc "/* only a comment */")).IsValid = false ∧
    (ValidateUpdateQuery (lc "/* only a comment */")).IsValid = false ∧
    (validateDDL (lc "/* only a comment */")).isValid = false ∧
    (validateDBAQuery (lc "/* only a comment */")).isValid = false :=
  C7_empty_rejected (lc "/* only a comment */") (by decide) (by decide)

/-! ## C8 -/

/-- C8: for each validator, when every check other than the length bound
passes, the verdict is decided exactly by the strict comparison with
maxLength — a query of length maxLength is accepted and any longer one is
rejected with the too-long reason (10000 for the read validator, 50000 for
the DDL and DBA validators). -/
theorem C8_maxLength :
    (∀ s : List Char, isNullOrWs s = false → isNullOrWs (normalizeCs s) = false →
      (lc "SELECT").isPrefixOf (upperL (normalizeCs s)) = true →
      findFirstKw DangerousKeywords (upperL (normalizeCs s)) = none →
      DangerousPatterns s = false →
      ¬ (statementsOf (normalizeCs s)).length > 1 →
      (hasSub (lc "CHAR(") (upperL s) || hasSub (lc "NCHAR(") (upperL s) ||
        hasSub (lc "ASCII(") (upperL s)) = false →
      (((ValidateReadQuery s).IsValid = true ↔ s.length ≤ 10000) ∧
        (s.length > 10000 → ValidateReadQuery s = ⟨false, msgTooLong⟩))) ∧
    (∀ s : List Char, s ≠ [] → normalizeJs s ≠ [] →
      startsWithAllowedDDL (upperL (normalizeJs s)) = true →
      (((lc "CREATE ").isPrefixOf (upperL (normalizeJs s)) ||
        (lc "ALTER ").isPrefixOf (upperL (normalizeJs s))) &&
        !(hasAllowedObjectType (upperL (normalizeJs s)))) = false →
      findFirstKw DDL_DANGEROUS_KEYWORDS (upperL (normalizeJs s)) = none →
      DDL_DANGEROUS_PATTERNS s = false →
      (decide (((splitSemi (normalizeJs s)).filter fun st => !(trimWs st).isEmpty).length > 1) &&
        !(((splitSemi (normalizeJs s)).filter fun st => !(trimWs st).isEmpty).all
          fun st => startsWithAllowedDDL (upperL (trimWs st)))) = false →
      (hasSub (lc "CHAR(") s || hasSub (lc "NCHAR(") s || hasSub (lc "ASCII(") s) = false →
      (hasSub (lc "MASTER.") (upperL s) || hasSub (lc "MSDB.") (upperL s) ||
        hasSub (lc "MODEL.") (upperL s) || hasSub (lc "TEMPDB.") (upperL s)) = false →
      (((validateDDL s).isValid = true ↔ s.length ≤ 50000) ∧
        (s.length > 50000 → validateDDL s = ⟨false, some ddlMsgLong⟩))) ∧
    (∀ s : List Char, s ≠ [] → normalizeJs s ≠ [] →
      findFirstKw DBA_DANGEROUS_KEYWORDS (upperL (normalizeJs s)) = none →
      DBA_DANGEROUS_PATTERNS s = false →
      hasValidOperation (upperL (normalizeJs s)) = true →
      (((validateDBAQuery s).isValid = true ↔ s.length ≤ 50000) ∧
        (s.length > 50000 → validateDBAQuery s = ⟨false, some dbaMsgLong⟩))) := by
  refine ⟨?_, ?_, ?_⟩
  · intro s h0 h1 h2 h3 h4 h5 h6
    unfold ValidateReadQuery
    simp only [h0, h1, h2, h3, h4, h5, h6]
    constructor
    · by_cases hl : s.length > 10000
      · simp [hl]; try omega
      · simp [hl]; try omega
    · intro hlen; simp [hlen]
  · intro s h0 h1 h2 h3 h4 h5 h6 h7 h8
    unfold validateDDL
    simp only [h0, h1, h2, h3, h4, h5, h6, h7, h8]
    constructor
    · by_cases hl : s.length > 50000
      · simp [hl]; try omega
      · simp [hl]; try omega
    · intro hlen; simp [hlen]
  · intro s h0 h1 h2 h3 h4
    unfold validateDBAQuery
    simp only [h0, h1, h2, h3, h4]
    constructor
    · by_cases hl : s.length > 50000
      · simp [hl]; try omega
      · simp [hl]; try omega
    · intro hlen; simp [hlen]

/-- C8, witness for the three clauses at small inputs that satisfy every
non-length check. -/
theorem C8_witness :
    (((ValidateReadQuery (lc "SELECT 1")).IsValid = true ↔ (lc "SELECT 1").length ≤ 10000) ∧
      ((lc "SELECT 1").length > 10000 →
        ValidateReadQuery (lc "SELECT 1") = ⟨false, msgTooLong⟩)) ∧
    (((validateDDL (lc "DROP TABLE t")).isValid = true ↔ (lc "DROP TABLE t").length ≤ 50000) ∧
      ((lc "DROP TABLE t").length > 50000 →
        validateDDL (lc "DROP TABLE t") = ⟨false, some ddlMsgLong⟩)) ∧
    (((validateDBAQuery (lc "SELECT 1")).isValid = true ↔ (lc "SELECT 1").length ≤ 50000) ∧
      ((lc "SELECT 1").length > 50000 →
        validateDBAQuery (lc "SELECT 1") = ⟨false, some dbaMsgLong⟩)) :=
  ⟨C8_maxLength.1 (lc "SELECT 1") (by decide) (by decide) (by decide) (by decide)
      (by decide) (by decide) (by decide),
   C8_maxLength.2.1 (lc "DROP TABLE t") (by decide) (by decide) (by decide) (by decide)
      (by decide) (by decide) (by decide) (by decide) (by decide),
   C8_maxLength.2.2 (lc "SELECT 1") (by decide) (by decide) (by decide) (by decide)
      (by decide)⟩

/-! ## C9 -/

/-- C9: under the read policy, once the checks ordered before it pass
(non-empty, leading SELECT, keyword scan, pattern scan, single statement),
any input whose RAW text contains CHAR-paren, NCHAR-paren or ASCII-paren
as a case-insensitive substring — anywhere, a comment or literal included,
and with no concatenation operator required — is rejected with the
character-conversion reason. -/
theorem C9_char_conversion (s : List Char)
    (h0 : isNullOrWs s = false) (h1 : isNullOrWs (normalizeCs s) = false)
    (h2 : (lc "SELECT").isPrefixOf (upperL (normalizeCs s)) = true)
    (h3 : findFirstKw DangerousKeywords (upperL (normalizeCs s)) = none)
    (h4 : DangerousPatterns s = false)
    (h5 : ¬ (statementsOf (normalizeCs s)).length > 1)
    (h6 : (hasSub (lc "CHAR(") (upperL s) || hasSub (lc "NCHAR(") (upperL s) ||
      hasSub (lc "ASCII(") (upperL s)) = true) :
    ValidateReadQuery s = ⟨false, msgCharConv⟩ := by
  unfold ValidateReadQuery
  simp [h0, h1, h2, h3, h4, h5, h6]

/-- C9, witness: the substring sits inside a line comment, with no
concatenation, and still trips the check, since it is tested on the raw
text. -/
theorem C9_witness :
    ValidateReadQuery (lc "SELECT 1 -- CHAR(") = ⟨false, msgCharConv⟩ :=
  C9_char_conversion (lc "SELECT 1 -- CHAR(") (by decide) (by decide) (by decide)
    (by decide) (by decide) (by decide) (by decide)

/-! ## C10 -/

/-- C10: under the DDL policy, once the checks ordered before the pattern
scan pass (non-empty, allowed leading verb, object type, keyword scan),
any input whose raw text contains sp-underscore or xp-underscore anywhere,
case-insensitively and with no word boundary, is rejected with the
malicious-pattern reason. -/
theorem C10_sp_xp (s : List Char) (h0 : s ≠ []) (h1 : normalizeJs s ≠ [])
    (h2 : startsWithAllowedDDL (upperL (normalizeJs s)) = true)
    (h3 : (((lc "CREATE ").isPrefixOf (upperL (normalizeJs s)) ||
      (lc "ALTER ").isPrefixOf (upperL (normalizeJs s))) &&
      !(hasAllowedObjectType (upperL (normalizeJs s)))) = false)
    (h4 : findFirstKw DDL_DANGEROUS_KEYWORDS (upperL (normalizeJs s)) = none)
    (h5 : (hasSub (lc "SP_") (upperL s) || hasSub (lc "XP_") (upperL s)) = true) :
    validateDDL s = ⟨false, some ddlMsgPattern⟩ := by
  have hP : DDL_DANGEROUS_PATTERNS s = true := by
    unfold DDL_DANGEROUS_PATTERNS
    rcases Bool.or_eq_true_iff.1 h5 with hsp | hxp
    · simp [hsp]
    · simp [hxp]
  unfold validateDDL
  simp [h0, h1, h2, h3, h4, hP]

/-- C10, witness: the ordinary identifier grasp underscore data contains
sp-underscore and is rejected as a malicious pattern. -/
theorem C10_witness :
    validateDDL (lc "CREATE TABLE grasp_data (id INT)") = ⟨false, some ddlMsgPattern⟩ :=
  C10_sp_xp (lc "CREATE TABLE grasp_data (id INT)") (by decide) (by decide) (by decide)
    (by decide) (by decide) (by decide)

/-! ## C6: normalization idempotence -/

/-- Dropping the head preserves absence of an adjacent pair. -/
theorem hasSub2_tail {a b c : Char} {rest : List Char}
    (h : hasSub2 a b (c :: rest) = false) : hasSub2 a b rest = false := by
  cases rest with
  | nil => rfl
  | cons d r2 =>
    rw [hasSub2] at h
    exact (Bool.or_eq_false_iff.1 h).2

/-- Unfolding equation for the scanning state of the line-comment
remover. -/
theorem rlcCs_false_cons (c : Char) (rest : List Char) :
    rlcCs false (c :: rest) =
      if c = '-' then
        match rest with
        | [] => [c]
        | d :: rest2 => if d = '-' then rlcCs true rest2 else c :: rlcCs false (d :: rest2)
      else c :: rlcCs false rest := by
  conv_lhs => rw [rlcCs.eq_def]

/-- Unfolding equation for the block-comment remover with positive fuel. -/
theorem rbcF_succ_cons (f : Nat) (c : Char) (rest : List Char) :
    rbcF (f + 1) (c :: rest) =
      if c = '/' then
        match rest with
        | [] => [c]
        | d :: rest2 =>
          if d = '*' then
            match findClose rest2 with
            | some rest3 => rbcF f rest3
            | none => c :: d :: rest2
          else c :: rbcF f (d :: rest2)
      else c :: rbcF f rest := by
  conv_lhs => rw [rbcF.eq_def]

/-- Line-comment removal is the identity on text with no double dash. -/
theorem rlcCs_id (l : List Char) (h : hasSub2 '-' '-' l = false) :
    rlcCs false l = l := by
  induction l with
  | nil => rfl
  | cons c rest ih =>
    rw [rlcCs_false_cons]
    by_cases hc : c = '-'
    · subst hc
      cases rest with
      | nil => simp
      | cons d rest2 =>
        by_cases hd : d = '-'
        · subst hd
          rw [hasSub2] at h
          simp at h
        · simp only [if_pos rfl, if_neg hd]
          rw [ih (hasSub2_tail h)]
          simp
    · rw [if_neg hc, ih (hasSub2_tail h)]

/-- Block-comment removal is the identity on text with no slash-star, for
any fuel. -/
theorem rbcF_id (f : Nat) (l : List Char) (h : hasSub2 '/' '*' l = false) :
    rbcF f l = l := by
  induction f generalizing l with
  | zero => cases l <;> rfl
  | succ f ih =>
    cases l with
    | nil => rfl
    | cons c rest =>
      rw [rbcF_succ_cons]
      by_cases hc : c = '/'
      · subst hc
        cases rest with
        | nil => simp
        | cons d rest2 =>
          by_cases hd : d = '*'
          · subst hd
            rw [hasSub2] at h
            simp at h
          · simp only [if_pos rfl, if_neg hd]
            rw [ih (d :: rest2) (hasSub2_tail h)]
            simp
      · rw [if_neg hc, ih rest (hasSub2_tail h)]

/-- The whitespace replacement is the identity when no tab, newline or
carriage return occurs. -/
theorem replaceWsCs_id (l : List Char)
    (h : ∀ c ∈ l, (c = '\t' || c = '\n' || c = '\r') = false) :
    replaceWsCs l = l := by
  induction l with
  | nil => rfl
  | cons c rest ih =>
    unfold replaceWsCs
    simp only [List.map_cons]
    rw [if_neg (by simpa using h c (List.mem_cons_self c rest))]
    have := ih fun x hx => h x (List.mem_cons_of_mem c hx)
    unfold replaceWsCs at this
    rw [this]

/-- Every character of the collapsed text comes from the text. -/
theorem mem_collapse {x : Char} {l : List Char} (h : x ∈ collapseSpaces l) : x ∈ l := by
  induction l with
  | nil => exact h
  | cons c rest ih =>
    cases rest with
    | nil => exact h
    | cons d rest2 =>
      rw [collapseSpaces] at h
      by_cases hcd : (c = ' ' && d = ' ') = true
      · rw [if_pos hcd] at h
        exact List.mem_cons_of_mem c (ih h)
      · rw [if_neg hcd] at h
        rcases List.mem_cons.1 h with rfl | h2
        · exact List.mem_cons_self x _
        · exact List.mem_cons_of_mem c (ih h2)

/-- Every character after dropWhile comes from the text. -/
theorem mem_dropWhile {x : Char} {p : Char → Bool} {l : List Char}
    (h : x ∈ l.dropWhile p) : x ∈ l := by
  have hsplit := List.takeWhile_append_dropWhile p l
  rw [← hsplit]
  exact List.mem_append_right _ h

/-- Every character of the trimmed text comes from the text. -/
theorem mem_trim {x : Char} {l : List Char} (h : x ∈ trimWs l) : x ∈ l := by
  unfold trimWs at h
  exact mem_dropWhile (List.mem_reverse.1 (mem_dropWhile (List.mem_reverse.1 h)))

/-- Every character of the replaced text is no tab, newline or carriage
return. -/
theorem ws3_replace {x : Char} {l : List Char} (h : x ∈ replaceWsCs l) :
    (x = '\t' || x = '\n' || x = '\r') = false := by
  unfold replaceWsCs at h
  rcases List.mem_map.1 h with ⟨a, _, ha⟩
  by_cases hc : (a = '\t' || a = '\n' || a = '\r') = true
  · rw [if_pos hc] at ha
    subst ha
    decide
  · rw [if_neg hc] at ha
    subst ha
    simpa using hc

/-- Collapsing runs of spaces preserves the first character. -/
theorem head?_collapse (l : List Char) : (collapseSpaces l).head? = l.head? := by
  induction l with
  | nil => rfl
  | cons c rest ih =>
    cases rest with
    | nil => rfl
    | cons d rest2 =>
      rw [collapseSpaces]
      by_cases hcd : (c = ' ' && d = ' ') = true
      · rw [if_pos hcd]
        have h2 : c = ' ' ∧ d = ' ' := by simpa using hcd
        rcases h2 with ⟨rfl, rfl⟩
        rw [ih]
        rfl
      · rw [if_neg hcd]
        rfl

/-- Collapsing runs of spaces preserves the last character. -/
theorem getLast?_collapse (l : List Char) :
    (collapseSpaces l).getLast? = l.getLast? := by
  induction l with
  | nil => rfl
  | cons c rest ih =>
    cases rest with
    | nil => rfl
    | cons d rest2 =>
      rw [collapseSpaces]
      by_cases hcd : (c = ' ' && d = ' ') = true
      · rw [if_pos hcd, ih, List.getLast?_cons_cons]
      · rw [if_neg hcd]
        have hne : collapseSpaces (d :: rest2) ≠ [] := by
          intro hnil
          have := head?_collapse (d :: rest2)
          rw [hnil] at this
          cases this
        cases hX : collapseSpaces (d :: rest2) with
        | nil => exact absurd hX hne
        | cons x xs =>
          rw [List.getLast?_cons_cons, ← hX, ih, List.getLast?_cons_cons]

/-- The first character surviving dropWhile fails the predicate. -/
theorem head?_dropWhile {p : Char → Bool} {l : List Char} {c : Char}
    (h : (l.dropWhile p).head? = some c) : p c = false := by
  induction l with
  | nil => cases h
  | cons a rest ih =>
    rw [List.dropWhile_cons] at h
    by_cases hp : p a = true
    · rw [if_pos hp] at h
      exact ih h
    · rw [if_neg hp] at h
      cases h
      simpa using hp

/-- dropWhile is the identity when the head fails the predicate. -/
theorem dropWhile_self {p : Char → Bool} {l : List Char}
    (h : ∀ c, l.head? = some c → p c = false) : l.dropWhile p = l := by
  cases l with
  | nil => rfl
  | cons a rest =>
    rw [List.dropWhile_cons, if_neg]
    simp [h a rfl]

/-- The first character of a trimmed string is never whitespace. -/
theorem head?_trim {l : List Char} {c : Char}
    (h : (trimWs l).head? = some c) : isWsChar c = false := by
  unfold trimWs at h
  have hsplit :
      (l.dropWhile isWsChar).reverse.takeWhile isWsChar ++
        (l.dropWhile isWsChar).reverse.dropWhile isWsChar =
      (l.dropWhile isWsChar).reverse :=
    List.takeWhile_append_dropWhile _ _
  cases hDr : ((l.dropWhile isWsChar).reverse.dropWhile isWsChar).reverse with
  | nil => rw [hDr] at h; cases h
  | cons x xs =>
    rw [hDr] at h
    have hcx : c = x := by simpa using h.symm
    subst hcx
    have hA : l.dropWhile isWsChar =
        (c :: xs) ++ ((l.dropWhile isWsChar).reverse.takeWhile isWsChar).reverse := by
      have h2 := congrArg List.reverse hsplit
      rw [List.reverse_append] at h2
      rw [← hDr, h2]
      simp
    have hheadA : (l.dropWhile isWsChar).head? = some c := by
      rw [hA]; rfl
    exact head?_dropWhile hheadA

/-- The last character of a trimmed string is never whitespace. -/
theorem getLast?_trim {l : List Char} {c : Char}
    (h : (trimWs l).getLast? = some c) : isWsChar c = false := by
  unfold trimWs at h
  rw [List.getLast?_reverse] at h
  exact head?_dropWhile h

/-- Trimming after collapse-of-trim is the identity: the composed
normalization tail produces an already-trimmed string. -/
theorem trim_collapse_trim (x : List Char) :
    trimWs (collapseSpaces (trimWs x)) = collapseSpaces (trimWs x) := by
  have e1 : (collapseSpaces (trimWs x)).dropWhile isWsChar = collapseSpaces (trimWs x) := by
    apply dropWhile_self
    intro c hc
    rw [head?_collapse] at hc
    exact head?_trim hc
  have e2 : (collapseSpaces (trimWs x)).reverse.dropWhile isWsChar =
      (collapseSpaces (trimWs x)).reverse := by
    apply dropWhile_self
    intro c hc
    rw [List.head?_reverse, getLast?_collapse] at hc
    exact getLast?_trim hc
  show (((collapseSpaces (trimWs x)).dropWhile isWsChar).reverse.dropWhile
    isWsChar).reverse = collapseSpaces (trimWs x)
  rw [e1, e2, List.reverse_reverse]

/-- The collapsed text never contains two adjacent spaces. -/
theorem noTwo_collapse (l : List Char) :
    hasSub2 ' ' ' ' (collapseSpaces l) = false := by
  induction l with
  | nil => rfl
  | cons c rest ih =>
    cases rest with
    | nil => rfl
    | cons d rest2 =>
      rw [collapseSpaces]
      by_cases hcd : (c = ' ' && d = ' ') = true
      · rw [if_pos hcd]; exact ih
      · rw [if_neg hcd]
        cases hX : collapseSpaces (d :: rest2) with
        | nil => rfl
        | cons x xs =>
          have hxd : x = d := by
            have := head?_collapse (d :: rest2)
            rw [hX] at this
            simpa using this
          rw [hasSub2, ← hX, ih, Bool.or_false]
          subst hxd
          simpa using fun hc hx => hcd (by simp [hc, hx])

/-- Collapsing is the identity on text with no double space. -/
theorem collapse_self {l : List Char} (h : hasSub2 ' ' ' ' l = false) :
    collapseSpaces l = l := by
  induction l with
  | nil => rfl
  | cons c rest ih =>
    cases rest with
    | nil => rfl
    | cons d rest2 =>
      rw [collapseSpaces]
      rw [hasSub2] at h
      rcases Bool.or_eq_false_iff.1 h with ⟨h1, h2⟩
      rw [if_neg (by simp [h1]), ih h2]

/-- C6, counterexample.  Normalization is not idempotent: removing the
block comment of the text below splices the two dashes into a line-comment
opener, so a second normalization erases everything. -/
theorem C6_counterexample :
    normalizeCs (normalizeCs (lc "-/*x*/-")) ≠ normalizeCs (lc "-/*x*/-") := by
  decide

/-- C6, amended: normalization is idempotent on every string whose
normalized form contains no comment opener (no double dash and no
slash-star); in general comment removal can create new comment markers,
as the counterexample shows. -/
theorem C6_amended (s : List Char)
    (h1 : hasSub2 '-' '-' (normalizeCs s) = false)
    (h2 : hasSub2 '/' '*' (normalizeCs s) = false) :
    normalizeCs (normalizeCs s) = normalizeCs s := by
  have hws3 : ∀ c ∈ normalizeCs s, (c = '\t' || c = '\n' || c = '\r') = false := by
    intro c hc
    unfold normalizeCs at hc
    exact ws3_replace (mem_trim (mem_collapse hc))
  have e1 : rlcCs false (normalizeCs s) = normalizeCs s := rlcCs_id _ h1
  have e2 : rbcF (normalizeCs s).length (normalizeCs s) = normalizeCs s :=
    rbcF_id _ _ h2
  have e3 : replaceWsCs (normalizeCs s) = normalizeCs s := replaceWsCs_id _ hws3
  have e4 : trimWs (normalizeCs s) = normalizeCs s := by
    conv_lhs => rw [normalizeCs]
    rw [trim_collapse_trim]
    rw [normalizeCs]
  have e5 : collapseSpaces (normalizeCs s) = normalizeCs s := by
    apply collapse_self
    conv_lhs => rw [normalizeCs]
    exact noTwo_collapse _
  show collapseSpaces (trimWs (replaceWsCs (rbcF (rlcCs false (normalizeCs s)).length
    (rlcCs false (normalizeCs s))))) = normalizeCs s
  rw [e1, e2, e3, e4, e5]

/-- C6, witness for the amended theorem. -/
theorem C6_witness :
    normalizeCs (normalizeCs (lc "SELECT  1")) = normalizeCs (lc "SELECT  1") :=
  C6_amended (lc "SELECT  1") (by decide) (by decide)

end SqlVal
